import Mathlib

/-!
Verification development for the semantic front-end of the my-lang compiler
(shared/src/type_checker and shared/src display modules).

Conventions of the embedding:
* Rust HashMap<String, T> values are modelled as association lists read
  through alookup (first binding wins); HashMap::insert is modelled as a
  prepend, which is lookup-equivalent to in-place replacement.
* Fallible Rust functions returning Result are modelled with Except; a
  Rust panic is modelled with Option (none = the call panics).
* The Rust type TypeEnvironment<'a> holds parent: Option<&'a TypeEnvironment>;
  since a child frame borrows its parent immutably, the chain is modelled as
  an inductive value: root frames and child frames carrying their parent.
-/

namespace MyLang

/-- Modelled from the spec: the value type of the type checker
(type_checker::Type, defined in the type_checker module that is not under
src/).  Only the constructors the claims exercise are included: the
primitive types seeded by TypeEnvironment::new (type_environment.rs lines
16-34) and nominal/structural types carrying their declared name.  Per the
spec, every type has a full name: the declared identifier for nominal
types, a canonical spelling for structural ones. -/
inductive Ty where
  | void
  | unit
  | bool
  | i8 | i16 | i32 | i64 | i128
  | u8 | u16 | u32 | u64 | u128
  | f32 | f64
  | char
  | string
  | struct_ (name : String)
  | enum_ (name : String)
  | union (name : String)
  | array (element : Ty)
  | function (param : Ty) (ret : Ty)
  | unknown
  deriving Repr, DecidableEq

/-- Modelled from the spec: Type::full_name (in the missing type_checker
module).  Primitives use the spellings with which TypeEnvironment::new
registers them; nominal types use their declared identifier; Array and
Function use a canonical spelling. -/
def Ty.fullName : Ty → String
  | .void => "void"
  | .unit => "()"
  | .bool => "bool"
  | .i8 => "i8"
  | .i16 => "i16"
  | .i32 => "i32"
  | .i64 => "i64"
  | .i128 => "i128"
  | .u8 => "u8"
  | .u16 => "u16"
  | .u32 => "u32"
  | .u64 => "u64"
  | .u128 => "u128"
  | .f32 => "f32"
  | .f64 => "f64"
  | .char => "char"
  | .string => "string"
  | .struct_ name => name
  | .enum_ name => name
  | .union name => name
  | .array element => "[" ++ element.fullName ++ "]"
  | .function param ret => "fun(" ++ param.fullName ++ "): " ++ ret.fullName
  | .unknown => "unknown"

/-- Association-list lookup modelling HashMap::get: the first binding for
the key wins. -/
def alookup (key : String) : List (String × Ty) → Option Ty
  | [] => none
  | (k, v) :: rest => if k = key then some v else alookup key rest

/-- The lexically scoped type environment
(type_checker/type_environment.rs lines 5-10).  parent: Option<&'a
TypeEnvironment> is modelled by the two constructors: a root frame has no
parent, a child frame carries the parent environment it borrows. -/
inductive TypeEnvironment where
  | root (types : List (String × Ty)) (vars : List (String × Ty))
  | child (parent : TypeEnvironment) (types : List (String × Ty)) (vars : List (String × Ty))
  deriving Repr, DecidableEq

namespace TypeEnvironment

/-- The local types map of a frame. -/
def types : TypeEnvironment → List (String × Ty)
  | .root ts _ => ts
  | .child _ ts _ => ts

/-- The local vars map of a frame. -/
def vars : TypeEnvironment → List (String × Ty)
  | .root _ vs => vs
  | .child _ _ vs => vs

/-- The parent pointer of a frame. -/
def parent : TypeEnvironment → Option TypeEnvironment
  | .root _ _ => none
  | .child p _ _ => some p

/-- TypeEnvironment::new (type_environment.rs lines 13-37): a root frame
seeded with the built-in primitive types, in source order. -/
def new : TypeEnvironment :=
  .root
    [ ("void", .void), ("()", .unit), ("bool", .bool),
      ("i8", .i8), ("i16", .i16), ("i32", .i32), ("i64", .i64), ("i128", .i128),
      ("u8", .u8), ("u16", .u16), ("u32", .u32), ("u64", .u64), ("u128", .u128),
      ("f32", .f32), ("f64", .f64), ("char", .char), ("string", .string) ]
    []

/-- TypeEnvironment::new_child (lines 39-45): a fresh frame whose parent
chain points to the given environment. -/
def newChild (p : TypeEnvironment) : TypeEnvironment :=
  .child p [] []

/-- Rebuild a frame with new local types. -/
def withTypes (env : TypeEnvironment) (ts : List (String × Ty)) : TypeEnvironment :=
  match env with
  | .root _ vs => .root ts vs
  | .child p _ vs => .child p ts vs

/-- Rebuild a frame with new local vars. -/
def withVariables (env : TypeEnvironment) (vs : List (String × Ty)) : TypeEnvironment :=
  match env with
  | .root ts _ => .root ts vs
  | .child p ts _ => .child p ts vs

/-- TypeEnvironment::add_type (lines 47-55): if the type's full name is
already a key of the local types map, return Err and leave the frame
unchanged; otherwise insert it.  The Rust method mutates self and returns
Result<(), String>; the model returns the Result together with the
resulting frame. -/
def addType (env : TypeEnvironment) (type_ : Ty) : Except String Unit × TypeEnvironment :=
  if (alookup type_.fullName env.types).isSome then
    (.error ("Type " ++ type_.fullName ++ " already exists"), env)
  else
    (.ok (), env.withTypes ((type_.fullName, type_) :: env.types))

/-- TypeEnvironment::add_variable (lines 57-59): HashMap::insert, which
replaces any existing local binding; modelled as a shadowing prepend. -/
def addVariable (env : TypeEnvironment) (name : String) (type_ : Ty) : TypeEnvironment :=
  env.withVariables ((name, type_) :: env.vars)

/-- TypeEnvironment::get_type (lines 61-69): local map first, then walk
the parent chain; None when exhausted. -/
def getType (env : TypeEnvironment) (name : String) : Option Ty :=
  match env with
  | .root ts _ => alookup name ts
  | .child p ts _ =>
    match alookup name ts with
    | some t => some t
    | none => getType p name

/-- TypeEnvironment::get_variable (lines 71-79): same walk over the
vars maps. -/
def getVariable (env : TypeEnvironment) (name : String) : Option Ty :=
  match env with
  | .root _ vs => alookup name vs
  | .child p _ vs =>
    match alookup name vs with
    | some t => some t
    | none => getVariable p name

/-- TypeEnvironment::lookup_type (lines 89-97): the boolean form; checks
the local types map for the value's full name, else recurses into the
parent, else false.  The Rust method is generic over T: FullName and uses
only full_name(); the model takes a Ty and its fullName. -/
def lookupType (env : TypeEnvironment) (value : Ty) : Bool :=
  match env with
  | .root ts _ => (alookup value.fullName ts).isSome
  | .child p ts _ =>
    if (alookup value.fullName ts).isSome then true
    else lookupType p value

/-- Whether any frame of the chain binds the name in its types map (used
to state when get_type returns None). -/
def bindsType (env : TypeEnvironment) (name : String) : Bool :=
  match env with
  | .root ts _ => (alookup name ts).isSome
  | .child p ts _ => (alookup name ts).isSome || bindsType p name

/-- Whether any frame of the chain binds the name in its vars map. -/
def bindsVariable (env : TypeEnvironment) (name : String) : Bool :=
  match env with
  | .root _ vs => (alookup name vs).isSome
  | .child p _ vs => (alookup name vs).isSome || bindsVariable p name

end TypeEnvironment

/-- A mutation performed on an environment frame: the two mutating
operations of type_environment.rs. -/
inductive EnvOp where
  | addTypeOp (type_ : Ty)
  | addVariableOp (name : String) (type_ : Ty)
  deriving Repr

/-- Apply a sequence of mutations to a frame, in order.  A failing
add_type leaves the frame unchanged, as in the source. -/
def applyOps (ops : List EnvOp) (env : TypeEnvironment) : TypeEnvironment :=
  match ops with
  | [] => env
  | .addTypeOp t :: rest => applyOps rest (TypeEnvironment.addType env t).2
  | .addVariableOp n t :: rest => applyOps rest (TypeEnvironment.addVariable env n t)

/-- Modelled from the spec: the unresolved type annotation form
(types::TypeAnnotation, whose defining module is not under src/).  The
variant list is the one display.rs lines 2927-3009 matches on: Type,
ConcreteType, Array, Function; the Literal variant is omitted because its
payload lives entirely in the missing parser module and no claim
exercises it. -/
inductive TypeAnnot where
  | type_ (name : String)
  | concreteType (name : String) (args : List TypeAnnot)
  | array (element : TypeAnnot)
  | function (params : List TypeAnnot) (returnType : TypeAnnot)
  deriving Repr

/-- DiscoveredType (type_checker/type_checker.rs lines 7-11), the record
type produced by the discovery pass.  It has exactly these three
constructors in the source: Struct, Union and Function; there is no
enum record kind.  TypeIdentifier payloads are reduced to the declared
name and HashMap payloads to association lists. -/
inductive DiscoveredType where
  | struct_ (id : String) (fields : List (String × TypeAnnot))
  | union (id : String) (members : List (String × List (String × TypeAnnot)))
  | function (id : String) (params : List (String × TypeAnnot)) (returnType : TypeAnnot)
  deriving Repr

/-- The declared identifier a discovery record carries. -/
def DiscoveredType.name : DiscoveredType → String
  | .struct_ id _ => id
  | .union id _ => id
  | .function id _ _ => id

/-- Modelled from the spec: a surface statement (parser::Statement, not
under src/; its variant list appears in display.rs lines 82-449).
The model covers the struct/function sublanguage the claims exercise:
declarations carry the declared name and raw annotations, expression
statements are opaque since discovery does not evaluate expressions and
the enum/union record mapping of the missing discovery code cannot be
reconstructed. -/
inductive Stmt where
  | structDeclaration (id : String) (fields : List (String × TypeAnnot))
  | functionDeclaration (id : String) (params : List (String × TypeAnnot)) (returnType : TypeAnnot)
  | expression
  deriving Repr

/-- Modelled from the spec: the root Statement::Program { statements }. -/
structure Program where
  statements : List Stmt
  deriving Repr

/-- The name a statement declares, when it is a declaration. -/
def declName : Stmt → Option String
  | .structDeclaration id _ => some id
  | .functionDeclaration id _ _ => some id
  | .expression => none

/-- The declared names of a statement list, in order (declarations only;
expression statements declare nothing). -/
def declNames (stmts : List Stmt) : List String :=
  stmts.filterMap declName

/-- Modelled from the spec: one step of the discovery scan.  A struct or
function declaration is recorded, holding the declared identifier and the
raw annotations; a record whose name is already taken raises the
duplicate-declaration error; expressions are skipped. -/
def discoverStep (acc : List DiscoveredType) (s : Stmt) : Except String (List DiscoveredType) :=
  match s with
  | .structDeclaration id fields =>
    if acc.any (fun d => d.name = id) then .error ("Duplicate declaration " ++ id)
    else .ok (acc ++ [.struct_ id fields])
  | .functionDeclaration id params ret =>
    if acc.any (fun d => d.name = id) then .error ("Duplicate declaration " ++ id)
    else .ok (acc ++ [.function id params ret])
  | .expression => .ok acc

/-- The discovery scan folded over a statement list. -/
def discoverList (stmts : List Stmt) (acc : List DiscoveredType) : Except String (List DiscoveredType) :=
  match stmts with
  | [] => .ok acc
  | s :: rest =>
    match discoverStep acc s with
    | .error e => .error e
    | .ok acc2 => discoverList rest acc2

/-- Modelled from the spec: statements::discover_user_defined_types (in
the statements module that is not under src/): a pure top-to-bottom scan
of the program recording declarations, failing on duplicate declaration
names at the same scope and deferring every other error to elaboration. -/
def discoverUserDefinedTypes (program : Program) : Except String (List DiscoveredType) :=
  discoverList program.statements []

/-- Modelled from the spec: a typed statement of the typed IR (§3.4):
mirrors the surface statement and carries resolved types. -/
inductive TypedStmt where
  | structDeclaration (id : String) (fields : List (String × Ty)) (type_ : Ty)
  | functionDeclaration (id : String) (params : List (String × Ty)) (returnType : Ty) (type_ : Ty)
  | expression (type_ : Ty)
  deriving Repr

/-- Modelled from the spec: the typed root program
(TypedStatement::Program). -/
structure TypedProgram where
  statements : List TypedStmt
  deriving Repr

/-- Modelled from the spec: resolution of a bare type name during
elaboration: the environment is consulted first, then the discovered
records (struct and union records denote types; a miss is the
unknown-type error). -/
def resolveName (ds : List DiscoveredType) (env : TypeEnvironment) (name : String) : Except String Ty :=
  match TypeEnvironment.getType env name with
  | some t => .ok t
  | none =>
    match ds.find? (fun d => d.name = name) with
    | some (.struct_ id _) => .ok (.struct_ id)
    | some (.union id _) => .ok (.union id)
    | some (.function _ _ _) => .error ("Unknown type " ++ name)
    | none => .error ("Unknown type " ++ name)

/-- Modelled from the spec: resolution of a raw annotation to a type.
Generic-argument and parameter positions are not resolved here (the
generic machinery belongs to the absent elaborator and no claim depends
on it); the base name, array elements and the return position are. -/
def resolveAnnot (ds : List DiscoveredType) (env : TypeEnvironment) : TypeAnnot → Except String Ty
  | .type_ name => resolveName ds env name
  | .concreteType name _ => resolveName ds env name
  | .array element => (resolveAnnot ds env element).map .array
  | .function _ returnType => (resolveAnnot ds env returnType).map (.function .unknown)

/-- Modelled from the spec: elaboration of one statement, reduced to
annotation resolution; the first failing resolution is the statement's
error, matching the source signature Result<TypedStatement, String>. -/
def checkStmt (ds : List DiscoveredType) (env : TypeEnvironment) : Stmt → Except String TypedStmt
  | .structDeclaration id fields =>
    (fields.mapM fun f => (resolveAnnot ds env f.2).map (fun t => (f.1, t))).map
      (fun typedFields => .structDeclaration id typedFields (.struct_ id))
  | .functionDeclaration id params returnType => do
    let typedParams ← params.mapM fun f => (resolveAnnot ds env f.2).map (fun t => (f.1, t))
    let typedReturn ← resolveAnnot ds env returnType
    pure (.functionDeclaration id typedParams typedReturn
      (typedParams.foldr (fun f acc => .function f.2 acc) typedReturn))
  | .expression => .ok (.expression .unit)

/-- Modelled from the spec: statements::check_type (in the missing
statements module).  Its signature is fixed by the caller in
type_checker.rs line 18: Result<TypedStatement, String>, so it can carry
either a typed program or a single error string, never both and no
diagnostic list; per §4.3 the first fatal error is reported. -/
def checkType (program : Program) (ds : List DiscoveredType) (env : TypeEnvironment) : Except String TypedProgram :=
  (program.statements.mapM (checkStmt ds env)).map TypedProgram.mk

/-- create_typed_ast (type_checker.rs lines 13-19) with the elaboration
pass abstracted as a parameter, so that theorems can quantify over it:
first run discovery over the whole program, propagating its error with
the question-mark operator, and only on success run the elaboration
pass. -/
def createTypedAstWith
    (elaborate : Program → List DiscoveredType → TypeEnvironment → Except String TypedProgram)
    (program : Program) (env : TypeEnvironment) : Except String TypedProgram :=
  match discoverUserDefinedTypes program with
  | .error e => .error e
  | .ok ds => elaborate program ds env

/-- create_typed_ast (type_checker.rs lines 13-19): discovery, then the
type check of the entire AST. -/
def createTypedAst (program : Program) (env : TypeEnvironment) : Except String TypedProgram :=
  createTypedAstWith checkType program env

/-!
The typed renderer (display.rs).  Indent (lines 22-76) is a stack of
is-last-sibling bits; indent_display methods mutate the stack and return
the rendered string, modelled by threading the stack explicitly.  The
claims are settled on a faithful fragment of the renderer: each embedded
method mirrors its display.rs impl statement by statement; typed-IR
variants outside the fragment are not needed by any claim.
-/

namespace Indent

/-- Indent::increase (display.rs line 31): push false. -/
def increase (levels : List Bool) : List Bool := levels ++ [false]

/-- Indent::increase_leaf (line 35): push true. -/
def increaseLeaf (levels : List Bool) : List Bool := levels ++ [true]

/-- Indent::decrease (line 39): Vec::pop, a no-op on an empty stack. -/
def decrease (levels : List Bool) : List Bool := levels.dropLast

/-- Indent::end_current (lines 43-51): mark the innermost level as
ended; early return on an empty stack. -/
def endCurrent (levels : List Bool) : List Bool :=
  if levels = [] then levels else levels.dropLast ++ [true]

/-- Indent::dash (lines 53-62): the glyphs for every level but the
innermost, two spaces for an ended level and a pipe otherwise, ending in
the tee connector. -/
def dash (levels : List Bool) : String :=
  levels.dropLast.foldl (fun acc isEnd => acc ++ (if isEnd then "  " else "┆ ")) "" ++ "├─"

/-- Indent::dash_end (lines 64-75): the same glyph run; then, when the
stack is nonempty, the corner connector if the innermost level is ended
and the tee connector otherwise. -/
def dashEnd (levels : List Bool) : String :=
  levels.dropLast.foldl (fun acc isEnd => acc ++ (if isEnd then "  " else "┆ ")) "" ++
    (match levels.getLast? with
     | some isEnd => if isEnd then "╰─" else "├─"
     | none => "")

/-- The glyph run of an indentation stack, written recursively for the
specification side of the connector theorem: two spaces for an ended
level, a pipe and a space otherwise. -/
def glyphRun : List Bool → String
  | [] => ""
  | isEnd :: rest => (if isEnd then "  " else "┆ ") ++ glyphRun rest

end Indent

/-- types::GenericType as rendered by display.rs lines 2871-2880, which
reads only its type_name (the defining module is not under src/). -/
structure GenericType where
  typeName : String
  deriving Repr

/-- Modelled from the spec: types::GenericConstraint (its defining module
is not under src/): display.rs lines 2882-2925 reads a generic and a
constraints collection; per §4.3 each constraint names a protocol bound,
modelled with GenericType, the one payload display.rs pins down. -/
structure GenericConstraint where
  generic : GenericType
  constraints : List GenericType
  deriving Repr

/-- types::TypeIdentifier restricted to the two variants whose rendering
is closed over the fragment (Type and GenericType, display.rs lines
2778-2817); the ConcreteType and MemberType variants are not exercised by
any claim. -/
inductive TypeIdent where
  | type_ (typeName : String)
  | genericType (typeName : String) (generics : List GenericType)
  deriving Repr

/-- Modelled from the spec: TypeIdentifier's Display form (the impl is
not under src/): the declared identifier, with angle brackets over the
generic parameters in declaration order. -/
def TypeIdent.displayName : TypeIdent → String
  | .type_ n => n
  | .genericType n gs => n ++ "<" ++ String.intercalate ", " (gs.map GenericType.typeName) ++ ">"

/-- type_checker::ast::StructField as read by display.rs lines
2609-2618: identifier, type and mutability. -/
structure TStructField where
  identifier : String
  type_ : Ty
  mutable : Bool
  deriving Repr

/-- type_checker::ast::EnumMemberFieldInitializers as matched by
display.rs lines 2731-2770: None or Named over (identifier, initializer)
entries.  The container and the initializer type live in the missing
ast.rs; the entries are modelled as an ordered association list of
pre-rendered initializers (the String impl of IndentDisplay, display.rs
lines 3236-3240). -/
inductive EnumMemberFieldInitializers where
  | none
  | named (fieldInitializers : List (String × String))
  deriving Repr

/-- Rust bool Display. -/
def boolStr (b : Bool) : String := if b then "true" else "false"

/-- Modelled from the spec: the Display form of a type (the impl is in
the missing type_checker module); §3.1: every type is displayed through
its full name. -/
def tyDisplay (t : Ty) : String := t.fullName

/-- display.rs lines 2871-2880: GenericType's indent_display. -/
def renderGenericType (g : GenericType) (ind : List Bool) : String × List Bool :=
  let result := "<generic type>\n"
  let ind := Indent.increaseLeaf ind
  let result := result ++ Indent.dashEnd ind ++ "type: " ++ g.typeName
  let ind := Indent.decrease ind
  (result, ind)

/-- The for-loop shared by the list-rendering impls (for example
display.rs lines 2898-2919): every item but the last is rendered behind
dash with a trailing comma; the last is rendered behind dash_end after
end_current. -/
def renderItems (renderItem : α → List Bool → String × List Bool) (label : String)
    (items : List α) (ind : List Bool) : String × List Bool :=
  match items with
  | [] => ("", ind)
  | [x] =>
    let ind := Indent.endCurrent ind
    let pre := "\n" ++ Indent.dashEnd ind ++ label
    let (s, ind) := renderItem x ind
    (pre ++ s, ind)
  | x :: rest =>
    let pre := "\n" ++ Indent.dash ind ++ label
    let (s, ind) := renderItem x ind
    let (s2, ind) := renderItems renderItem label rest ind
    (pre ++ s ++ "," ++ s2, ind)

/-- display.rs lines 2882-2925: GenericConstraint's indent_display.  Note
this impl pushes a leaf level and renders both its type child and its
constraints child behind dash_end. -/
def renderGenericConstraint (gc : GenericConstraint) (ind : List Bool) : String × List Bool :=
  let result := "<generic constraint>\n"
  let ind := Indent.increaseLeaf ind
  let de := Indent.dashEnd ind
  let (s, ind) := renderGenericType gc.generic ind
  let result := result ++ de ++ "type: " ++ s ++ "\n"
  let result := result ++ Indent.dashEnd ind ++ "constraints:"
  let ind := Indent.increase ind
  let (s2, ind) := renderItems renderGenericType "constraint: " gc.constraints ind
  let result := result ++ s2
  let ind := Indent.decrease ind
  let ind := Indent.decrease ind
  (result, ind)

/-- display.rs lines 2772-2817: TypeIdentifier's indent_display for the
Type and GenericType variants. -/
def renderTypeIdent (ti : TypeIdent) (ind : List Bool) : String × List Bool :=
  let result := "<type name>: " ++ ti.displayName ++ "\n"
  match ti with
  | .type_ typeName =>
    let ind := Indent.increaseLeaf ind
    let result := result ++ Indent.dashEnd ind ++ "type: " ++ typeName
    let ind := Indent.decrease ind
    (result, ind)
  | .genericType typeName generics =>
    let ind := Indent.increase ind
    let result := result ++ Indent.dash ind ++ "type: " ++ typeName
    let ind := Indent.endCurrent ind
    let result := result ++ "\n" ++ Indent.dashEnd ind ++ "generics:"
    let ind := Indent.increase ind
    let (s, ind) := renderItems renderGenericType "generic: " generics ind
    let result := result ++ s
    let ind := Indent.decrease ind
    let ind := Indent.decrease ind
    (result, ind)

/-- display.rs lines 2609-2618: type_checker::ast::StructField's
indent_display. -/
def renderTStructField (f : TStructField) (ind : List Bool) : String × List Bool :=
  let result := "<struct field> " ++ f.identifier ++ ": " ++ tyDisplay f.type_ ++ "\n"
  let ind := Indent.increaseLeaf ind
  let result := result ++ Indent.dashEnd ind ++ "mutable: " ++ boolStr f.mutable
  let ind := Indent.decrease ind
  (result, ind)

/-- display.rs lines 3242-3280: indent_display_vec, monomorphised to
GenericConstraint for the where-clause. -/
def indentDisplayVecConstraints (wc : List GenericConstraint) (ind : List Bool) : String × List Bool :=
  let result := "<generic constraints>"
  let ind := Indent.increase ind
  let (s, ind) := renderItems renderGenericConstraint "constraint: " wc ind
  let ind := Indent.decrease ind
  (result ++ s, ind)

/-- The payload of TypedStatement::StructDeclaration as matched by
display.rs lines 1623-1628. -/
structure TypedStructDecl where
  typeIdentifier : TypeIdent
  whereClause : Option (List GenericConstraint)
  fields : List TStructField
  type_ : Ty
  deriving Repr

/-- The field loop of display.rs lines 1660-1665: every field (not only
the last) is rendered after end_current and behind dash_end. -/
def renderStructFields (fields : List TStructField) (ind : List Bool) : String × List Bool :=
  match fields with
  | [] => ("", ind)
  | f :: rest =>
    let ind := Indent.endCurrent ind
    let pre := "\n" ++ Indent.dashEnd ind
    let (s, ind) := renderTStructField f ind
    let (s2, ind) := renderStructFields rest ind
    (pre ++ s ++ s2, ind)

/-- display.rs lines 1623-1669: TypedStatement::StructDeclaration's
indent_display. -/
def renderTypedStructDecl (d : TypedStructDecl) (ind : List Bool) : String × List Bool :=
  let result := "<struct declaration> " ++ tyDisplay d.type_ ++ "\n"
  let ind := Indent.increase ind
  let da := Indent.dash ind
  let (s, ind) := renderTypeIdent d.typeIdentifier ind
  let result := result ++ da ++ "type_name: " ++ s
  let (result, ind) :=
    match d.whereClause with
    | some wc =>
      let da2 := Indent.dash ind
      let (s2, ind) := indentDisplayVecConstraints wc ind
      (result ++ "\n" ++ da2 ++ "where_clause: " ++ s2, ind)
    | none => (result ++ "\n" ++ Indent.dash ind ++ "where_clause: None", ind)
  let (s3, ind) := renderStructFields d.fields ind
  let result := result ++ s3
  let ind := Indent.decrease ind
  (result, ind)

/-- display.rs lines 2731-2770: the typed
EnumMemberFieldInitializers' indent_display. -/
def renderEnumMemberFieldInits (e : EnumMemberFieldInitializers) (ind : List Bool) : String × List Bool :=
  match e with
  | .none => ("", ind)
  | .named fieldInitializers =>
    let result := "<named field initializer>"
    let ind := Indent.increase ind
    let (s, ind) := renderNamedEntries fieldInitializers ind
    let ind := Indent.decrease ind
    (result ++ s, ind)
where
  /-- The loop of lines 2740-2763: the label of each line is the entry's
  identifier; the value is the initializer's own rendering, here the
  String impl (lines 3236-3240). -/
  renderNamedEntries : List (String × String) → List Bool → String × List Bool
    | [], ind => ("", ind)
    | [(identifier, initializer)], ind =>
      let ind := Indent.endCurrent ind
      (("\n" ++ Indent.dashEnd ind ++ identifier ++ ": " ++ initializer), ind)
    | (identifier, initializer) :: rest, ind =>
      let pre := "\n" ++ Indent.dash ind ++ identifier ++ ": " ++ initializer ++ ","
      let (s2, ind) := renderNamedEntries rest ind
      (pre ++ s2, ind)

/-!
The parser renderer (parser/display.rs).  Its Indent (lines 3-39) is a
bare usize level; dash and dash_end iterate 0..self.level - 1, and on
usize that subtraction underflows when level is zero: debug builds panic
with a subtract-overflow, release builds loop for 2^64 - 1 iterations.
The model returns none for the underflowing call.
-/
namespace ParserIndent

/-- parser/display.rs lines 14-16: level += 1. -/
def increase (level : Nat) : Nat := level + 1

/-- parser/display.rs lines 18-20: level -= 1, underflowing at zero. -/
def decrease (level : Nat) : Option Nat :=
  if level = 0 then none else some (level - 1)

/-- parser/display.rs lines 22-29: 0..level - 1 pipes then the tee
connector; the bound level - 1 underflows when level is zero. -/
def dash (level : Nat) : Option String :=
  if level = 0 then none
  else some (String.join (List.replicate (level - 1) "┆ ") ++ "├─")

/-- parser/display.rs lines 31-38: 0..level - 1 bare pipes (no trailing
space in this loop) then the corner connector; the same underflow at
level zero. -/
def dashEnd (level : Nat) : Option String :=
  if level = 0 then none
  else some (String.join (List.replicate (level - 1) "┆") ++ "╰─")

end ParserIndent

/-- parser::Parameter as read by parser/display.rs lines 493-501:
identifier and type_name. -/
structure PParameter where
  identifier : String
  typeName : String
  deriving Repr

/-- parser::FieldInitializer as read by parser/display.rs lines 444-456:
an optional identifier and the initializer expression.  The initializer's
own rendering (a parser Expression, whose module is not under src/) is
modelled as a pre-rendered string; it is reached only after the two
indent calls. -/
structure PFieldInitializer where
  identifier : Option String
  initializer : String
  deriving Repr

/-- parser/display.rs lines 493-501: Parameter's indent_display.  It
calls dash and dash_end without a surrounding increase, so at indent
level zero both underflow. -/
def renderPParameter (p : PParameter) (level : Nat) : Option String := do
  let result := "<parameter>\n"
  let d ← ParserIndent.dash level
  let result := result ++ d ++ "parameter: " ++ p.identifier ++ "\n"
  let de ← ParserIndent.dashEnd level
  pure (result ++ de ++ "type_name: " ++ p.typeName)

/-- parser/display.rs lines 444-456: FieldInitializer's indent_display.
It also calls dash and dash_end without a surrounding increase. -/
def renderPFieldInitializer (f : PFieldInitializer) (level : Nat) : Option String := do
  let result := "<field initializer>\n"
  let line ←
    match f.identifier with
    | some identifier => do
      let d ← ParserIndent.dash level
      pure (d ++ "field initializer: " ++ identifier ++ "\n")
    | none => do
      let d ← ParserIndent.dash level
      pure (d ++ "field initializer: None\n")
  let de ← ParserIndent.dashEnd level
  pure (result ++ line ++ de ++ "initializer: " ++ f.initializer)

/-!
Line analysis of rendered output, used to state the connector claim.
A rendered line consists of an indentation run of level glyphs (a pipe
and a space for an open level, two spaces for an ended one) followed by a
connector and the node or label text; header and separator lines carry no
connector.  The depth of a line is the number of leading glyph pairs; the
connector is the corner or the tee found right after them.
-/

/-- Split a character list into lines at newline characters. -/
def splitLines (cs : List Char) : List (List Char) :=
  match cs with
  | [] => [[]]
  | c :: rest =>
    let ls := splitLines rest
    if c = '\n' then [] :: ls
    else
      match ls with
      | [] => [[c]]
      | l :: ls2 => (c :: l) :: ls2

/-- Strip the leading indentation glyph pairs of a line, counting them. -/
def stripGlyphs : List Char → Nat × List Char
  | '┆' :: ' ' :: rest =>
    let (n, r) := stripGlyphs rest
    (n + 1, r)
  | ' ' :: ' ' :: rest =>
    let (n, r) := stripGlyphs rest
    (n + 1, r)
  | other => (0, other)

/-- The connector of a line, when there is one right after its
indentation run: some true for the corner, some false for the tee. -/
def lineConnector (l : List Char) : Option Bool :=
  match (stripGlyphs l).2 with
  | '╰' :: '─' :: _ => some true
  | '├' :: '─' :: _ => some false
  | _ => none

/-- The depth of a line: its count of leading glyph pairs. -/
def lineDepth (l : List Char) : Nat := (stripGlyphs l).1

/-- Whether a line's indentation run ends properly: the remainder after
the glyph pairs is empty, a connector, or ordinary text (when text starts
with a stray glyph or space the indentation dangles without a
connector). -/
def lineWellFormed (l : List Char) : Bool :=
  match (stripGlyphs l).2 with
  | [] => true
  | '╰' :: '─' :: _ => true
  | '├' :: '─' :: _ => true
  | c :: _ => !(c = '┆' || c = '├' || c = '╰' || c = '─' || c = ' ')

/-- Scan the lines after a corner-connector line of the given depth:
lines strictly deeper belong to the ended child's subtree; a connector
line at the same depth before the level closes is a later sibling of the
same level, which the corner is claimed to rule out. -/
def siblingAfterCorner (depth : Nat) : List (List Char) → Bool
  | [] => false
  | l :: rest =>
    if lineDepth l > depth then siblingAfterCorner depth rest
    else if lineDepth l = depth && (lineConnector l).isSome then true
    else false

/-- Whether corner connectors appear only on the last child of their
level throughout the line list. -/
def cornerOnlyOnLast : List (List Char) → Bool
  | [] => true
  | l :: rest =>
    (if lineConnector l = some true then !siblingAfterCorner (lineDepth l) rest else true)
      && cornerOnlyOnLast rest

/-- The rendered-tree shape claimed for the typed renderer: every line's
indentation ends in a tee or corner connector, and a corner appears only
on the last child of its level. -/
def connectorClaim (s : String) : Bool :=
  (splitLines s.data).all lineWellFormed && cornerOnlyOnLast (splitLines s.data)

/-! Concrete values used by witnesses and counterexamples. -/

/-- A program declaring two structs with the same name. -/
def dupProgram : Program := ⟨[.structDeclaration "S" [], .structDeclaration "S" []]⟩

/-- A program whose single struct declaration fails to type-check: its
field annotation names the undeclared type Foo. -/
def badFieldProgram : Program := ⟨[.structDeclaration "S" [("x", .type_ "Foo")]]⟩

/-- A typed struct declaration with two fields and no where-clause. -/
def twoFieldStruct : TypedStructDecl :=
  { typeIdentifier := .type_ "S", whereClause := none,
    fields := [⟨"x", .i32, false⟩, ⟨"y", .i32, false⟩], type_ := .struct_ "S" }

/-- A typed struct declaration with a single where-clause constraint. -/
def whereClauseStruct : TypedStructDecl :=
  { typeIdentifier := .type_ "S", whereClause := some [⟨⟨"T"⟩, []⟩],
    fields := [], type_ := .struct_ "S" }

/-! Helper lemmas about the type environment. -/

namespace TypeEnvironment

theorem types_withTypes (env : TypeEnvironment) (ts : List (String × Ty)) :
    (env.withTypes ts).types = ts := by
  cases env <;> rfl

theorem vars_withTypes (env : TypeEnvironment) (ts : List (String × Ty)) :
    (env.withTypes ts).vars = env.vars := by
  cases env <;> rfl

theorem parent_withTypes (env : TypeEnvironment) (ts : List (String × Ty)) :
    (env.withTypes ts).parent = env.parent := by
  cases env <;> rfl

theorem types_withVariables (env : TypeEnvironment) (vs : List (String × Ty)) :
    (env.withVariables vs).types = env.types := by
  cases env <;> rfl

theorem vars_withVariables (env : TypeEnvironment) (vs : List (String × Ty)) :
    (env.withVariables vs).vars = vs := by
  cases env <;> rfl

theorem parent_withVariables (env : TypeEnvironment) (vs : List (String × Ty)) :
    (env.withVariables vs).parent = env.parent := by
  cases env <;> rfl

theorem getType_unfold (env : TypeEnvironment) (name : String) :
    env.getType name =
      (match alookup name env.types with
       | some t => some t
       | none =>
         match env.parent with
         | some p => p.getType name
         | none => none) := by
  cases env with
  | root ts vs =>
    simp only [getType, types, parent]
    cases alookup name ts <;> rfl
  | child p ts vs => simp [getType, types, parent]

theorem getVariable_unfold (env : TypeEnvironment) (name : String) :
    env.getVariable name =
      (match alookup name env.vars with
       | some t => some t
       | none =>
         match env.parent with
         | some p => p.getVariable name
         | none => none) := by
  cases env with
  | root ts vs =>
    simp only [getVariable, vars, parent]
    cases alookup name vs <;> rfl
  | child p ts vs => simp [getVariable, vars, parent]

theorem getType_none_iff (env : TypeEnvironment) (name : String) :
    env.getType name = none ↔ env.bindsType name = false := by
  induction env with
  | root ts vs =>
    simp only [getType, bindsType]
    cases alookup name ts <;> simp
  | child p ts vs ih =>
    simp only [getType, bindsType]
    cases alookup name ts <;> simp [ih]

theorem getVariable_none_iff (env : TypeEnvironment) (name : String) :
    env.getVariable name = none ↔ env.bindsVariable name = false := by
  induction env with
  | root ts vs =>
    simp only [getVariable, bindsVariable]
    cases alookup name vs <;> simp
  | child p ts vs ih =>
    simp only [getVariable, bindsVariable]
    cases alookup name vs <;> simp [ih]

theorem parent_addType (env : TypeEnvironment) (t : Ty) :
    ((env.addType t).2).parent = env.parent := by
  unfold addType
  split
  · rfl
  · exact parent_withTypes env _

theorem parent_addVariable (env : TypeEnvironment) (name : String) (t : Ty) :
    (env.addVariable name t).parent = env.parent := by
  unfold addVariable
  exact parent_withVariables env _

end TypeEnvironment

theorem parent_applyOps (ops : List EnvOp) (env : TypeEnvironment) :
    (applyOps ops env).parent = env.parent := by
  induction ops generalizing env with
  | nil => rfl
  | cons op rest ih =>
    cases op with
    | addTypeOp t =>
      simp only [applyOps]
      rw [ih, TypeEnvironment.parent_addType]
    | addVariableOp n t =>
      simp only [applyOps]
      rw [ih, TypeEnvironment.parent_addVariable]

/-- C4: add_type fails exactly when the full name is already bound in the
local frame (a binding in an ancestor frame alone does not make it fail,
since only the local map is consulted); on failure the frame is left
unchanged; on success get_type finds the inserted type under its full
name; and the local types map is append-only: neither add_type nor
add_variable replaces or removes an existing local type binding. -/
theorem addType_spec (env : TypeEnvironment) (t : Ty) :
    (((env.addType t).1.isOk = true) ↔ alookup t.fullName env.types = none)
    ∧ ((env.addType t).1.isOk = false → (env.addType t).2 = env)
    ∧ (alookup t.fullName env.types = none →
        ((env.addType t).2).getType t.fullName = some t)
    ∧ (∀ n u, alookup n env.types = some u →
        alookup n ((env.addType t).2).types = some u)
    ∧ (∀ name v n u, alookup n env.types = some u →
        alookup n ((env.addVariable name v).types) = some u) := by
  refine ⟨?_, ?_, ?_, ?_, ?_⟩
  · unfold TypeEnvironment.addType
    split <;> rename_i h <;> simp_all [Except.isOk, Except.toBool, Option.isSome_iff_ne_none]
  · unfold TypeEnvironment.addType
    split
    · intro _
      rfl
    · intro h
      simp [Except.isOk, Except.toBool] at h
  · intro h
    unfold TypeEnvironment.addType
    rw [if_neg (by simp [h])]
    rw [TypeEnvironment.getType_unfold]
    simp [TypeEnvironment.types_withTypes, alookup]
  · intro n u h
    unfold TypeEnvironment.addType
    split
    · simpa using h
    · rename_i hmiss
      rw [TypeEnvironment.types_withTypes]
      have hne : t.fullName ≠ n := by
        intro he
        rw [he] at hmiss
        simp [h] at hmiss
      simp [alookup, hne, h]
  · intro name v n u h
    rw [TypeEnvironment.addVariable, TypeEnvironment.types_withVariables]
    exact h

/-- Closed instance of the add_type contract: adding the struct type
Point to the fresh root environment succeeds and get_type then returns
it. -/
theorem addType_spec_witness :
    alookup (Ty.struct_ "Point").fullName TypeEnvironment.new.types = none
    ∧ ((TypeEnvironment.new.addType (Ty.struct_ "Point")).2).getType
        (Ty.struct_ "Point").fullName = some (Ty.struct_ "Point") :=
  ⟨by decide, (addType_spec TypeEnvironment.new (Ty.struct_ "Point")).2.2.1 (by decide)⟩

/-- C5: get_type and get_variable prefer the local frame's binding and
otherwise delegate to the parent chain, returning None exactly when no
frame of the chain binds the name; add_variable always succeeds and
overwrites the local binding, and a binding added in a child frame
shadows the parent's binding while the parent's own lookup still returns
the original type. -/
theorem env_lookup_spec (env p : TypeEnvironment) (n : String) (t u : Ty) :
    (∀ v, alookup n env.types = some v → env.getType n = some v)
    ∧ (alookup n env.types = none →
        env.getType n =
          (match env.parent with
           | some q => q.getType n
           | none => none))
    ∧ (env.getType n = none ↔ env.bindsType n = false)
    ∧ (∀ v, alookup n env.vars = some v → env.getVariable n = some v)
    ∧ (alookup n env.vars = none →
        env.getVariable n =
          (match env.parent with
           | some q => q.getVariable n
           | none => none))
    ∧ (env.getVariable n = none ↔ env.bindsVariable n = false)
    ∧ ((env.addVariable n t).getVariable n = some t)
    ∧ (p.getVariable n = some u →
        ((TypeEnvironment.newChild p).addVariable n t).getVariable n = some t
        ∧ p.getVariable n = some u) := by
  refine ⟨?_, ?_, ?_, ?_, ?_, ?_, ?_, ?_⟩
  · intro v h
    rw [TypeEnvironment.getType_unfold, h]
  · intro h
    rw [TypeEnvironment.getType_unfold, h]
  · exact TypeEnvironment.getType_none_iff env n
  · intro v h
    rw [TypeEnvironment.getVariable_unfold, h]
  · intro h
    rw [TypeEnvironment.getVariable_unfold, h]
  · exact TypeEnvironment.getVariable_none_iff env n
  · rw [TypeEnvironment.getVariable_unfold, TypeEnvironment.addVariable,
      TypeEnvironment.vars_withVariables]
    simp [alookup]
  · intro h
    refine ⟨?_, h⟩
    rw [TypeEnvironment.getVariable_unfold, TypeEnvironment.addVariable,
      TypeEnvironment.vars_withVariables]
    simp [TypeEnvironment.newChild, TypeEnvironment.withVariables, alookup]

/-- Closed instance of the lookup contract: with x bound to string in the
parent, binding x to i32 in a child frame shadows it there while the
parent still reads string. -/
theorem env_lookup_spec_witness :
    ((TypeEnvironment.newChild (TypeEnvironment.new.addVariable "x" .string)).addVariable
        "x" .i32).getVariable "x" = some .i32
    ∧ (TypeEnvironment.new.addVariable "x" .string).getVariable "x" = some .string :=
  (env_lookup_spec (TypeEnvironment.new.addVariable "x" .string)
    (TypeEnvironment.new.addVariable "x" .string) "x" .i32 .string).2.2.2.2.2.2.2 (by decide)

/-- C6: no sequence of add_type and add_variable operations on a child
frame mutates the parent: the resulting frame's parent is the original
environment, on which get_type, get_variable and lookup_type answer as
before. -/
theorem child_ops_never_mutate_parent (ops : List EnvOp) (p : TypeEnvironment) :
    ∃ q, (applyOps ops (TypeEnvironment.newChild p)).parent = some q
      ∧ (∀ n, q.getType n = p.getType n)
      ∧ (∀ n, q.getVariable n = p.getVariable n)
      ∧ (∀ t, q.lookupType t = p.lookupType t) := by
  refine ⟨p, ?_, fun _ => rfl, fun _ => rfl, fun _ => rfl⟩
  rw [parent_applyOps]
  rfl

/-! Discovery lemmas. -/

@[simp] theorem DiscoveredType.name_struct (id : String) (fields : List (String × TypeAnnot)) :
    (DiscoveredType.struct_ id fields).name = id := rfl

@[simp] theorem DiscoveredType.name_union (id : String)
    (members : List (String × List (String × TypeAnnot))) :
    (DiscoveredType.union id members).name = id := rfl

@[simp] theorem DiscoveredType.name_function (id : String)
    (params : List (String × TypeAnnot)) (ret : TypeAnnot) :
    (DiscoveredType.function id params ret).name = id := rfl

@[simp] theorem declName_struct (id : String) (fields : List (String × TypeAnnot)) :
    declName (Stmt.structDeclaration id fields) = some id := rfl

@[simp] theorem declName_function (id : String)
    (params : List (String × TypeAnnot)) (ret : TypeAnnot) :
    declName (Stmt.functionDeclaration id params ret) = some id := rfl

@[simp] theorem declName_expression : declName Stmt.expression = none := rfl

theorem any_name_eq (acc : List DiscoveredType) (id : String) :
    (acc.any fun d => d.name = id) = true ↔ id ∈ acc.map DiscoveredType.name := by
  simp only [List.any_eq_true, List.mem_map, decide_eq_true_eq]

theorem nodup_shift (idStr : String) (accNames restNames : List String)
    (hmiss : idStr ∉ accNames) :
    (restNames.Nodup ∧ ∀ n ∈ restNames, n ∉ accNames ++ [idStr]) ↔
      ((idStr :: restNames).Nodup ∧ ∀ n ∈ idStr :: restNames, n ∉ accNames) := by
  constructor
  · rintro ⟨hnd, hall⟩
    have hne : ∀ n ∈ restNames, n ∉ accNames ∧ n ≠ idStr := by
      intro n hn
      have := hall n hn
      simpa [List.mem_append] using this
    refine ⟨List.nodup_cons.mpr ⟨fun hmem => (hne idStr hmem).2 rfl, hnd⟩, ?_⟩
    intro n hn
    rcases List.mem_cons.mp hn with he | hn2
    · rw [he]
      exact hmiss
    · exact (hne n hn2).1
  · rintro ⟨hnd, hall⟩
    have hnd2 := List.nodup_cons.mp hnd
    refine ⟨hnd2.2, ?_⟩
    intro n hn
    simp only [List.mem_append, List.mem_singleton]
    rintro (hin | he)
    · exact hall n (List.mem_cons_of_mem _ hn) hin
    · rw [he] at hn
      exact hnd2.1 hn

theorem discoverList_ok_iff (stmts : List Stmt) (acc : List DiscoveredType) :
    (discoverList stmts acc).isOk = true ↔
      ((declNames stmts).Nodup ∧ ∀ n ∈ declNames stmts, n ∉ acc.map DiscoveredType.name) := by
  induction stmts generalizing acc with
  | nil =>
    simp [discoverList, declNames, Except.isOk, Except.toBool]
  | cons s rest ih =>
    cases s with
    | expression =>
      simpa [discoverList, discoverStep, declNames, List.filterMap_cons] using ih acc
    | structDeclaration id fields =>
      simp only [discoverList, discoverStep, declNames, List.filterMap_cons, declName_struct]
      by_cases h : (acc.any fun d => d.name = id) = true
      · rw [if_pos h]
        rw [any_name_eq] at h
        simp only [Except.isOk, Except.toBool]
        constructor
        · intro hf
          cases hf
        · rintro ⟨-, hall⟩
          exact absurd h (hall id (List.mem_cons_self _ _))
      · rw [if_neg h]
        rw [any_name_eq] at h
        rw [ih]
        simpa [declNames] using nodup_shift id (acc.map DiscoveredType.name)
          (List.filterMap declName rest) h
    | functionDeclaration id params ret =>
      simp only [discoverList, discoverStep, declNames, List.filterMap_cons, declName_function]
      by_cases h : (acc.any fun d => d.name = id) = true
      · rw [if_pos h]
        rw [any_name_eq] at h
        simp only [Except.isOk, Except.toBool]
        constructor
        · intro hf
          cases hf
        · rintro ⟨-, hall⟩
          exact absurd h (hall id (List.mem_cons_self _ _))
      · rw [if_neg h]
        rw [any_name_eq] at h
        rw [ih]
        simpa [declNames] using nodup_shift id (acc.map DiscoveredType.name)
          (List.filterMap declName rest) h

/-- C1: create_typed_ast runs discovery over the whole program first and
elaboration only afterwards.  Whatever elaboration pass is plugged in, a
discovery error is returned as is and elaboration is never consulted; on
discovery success elaboration runs on the discovered records; discovery
succeeds exactly when no two declarations share a name at the same scope,
so every other error is deferred to elaboration; and create_typed_ast is
this composition with check_type as the elaboration pass. -/
theorem createTypedAst_two_pass
    (elaborate : Program → List DiscoveredType → TypeEnvironment → Except String TypedProgram)
    (program : Program) (env : TypeEnvironment) :
    (∀ e, discoverUserDefinedTypes program = .error e →
        createTypedAstWith elaborate program env = .error e)
    ∧ (∀ ds, discoverUserDefinedTypes program = .ok ds →
        createTypedAstWith elaborate program env = elaborate program ds env)
    ∧ ((discoverUserDefinedTypes program).isOk = true ↔ (declNames program.statements).Nodup)
    ∧ createTypedAst program env = createTypedAstWith checkType program env := by
  refine ⟨?_, ?_, ?_, rfl⟩
  · intro e he
    unfold createTypedAstWith
    rw [he]
  · intro ds hds
    unfold createTypedAstWith
    rw [hds]
  · rw [discoverUserDefinedTypes, discoverList_ok_iff]
    simp

/-- Closed instance of the two-pass contract: on the program declaring
struct S twice, discovery fails with the duplicate-declaration error and
create_typed_ast returns exactly that error, for the real check_type
elaboration pass. -/
theorem createTypedAst_two_pass_witness :
    createTypedAstWith checkType dupProgram TypeEnvironment.new
      = .error "Duplicate declaration S" :=
  (createTypedAst_two_pass checkType dupProgram TypeEnvironment.new).1
    "Duplicate declaration S" rfl

/-- C2, counterexample: on the program whose struct field names the
undeclared type Foo — a statement that fails to type-check — the top
level does not return a typed program at all: it aborts with the single
error string, so in particular the rendered-with-holes typed output and
the full diagnostic list claimed by the specification are not returned. -/
theorem createTypedAst_aborts_on_error :
    createTypedAst badFieldProgram TypeEnvironment.new = .error "Unknown type Foo" := rfl

/-- C2, amended: when discovery succeeds and the elaboration of the
program fails, create_typed_ast returns exactly that single error string
and no typed program; its return type Result<TypedStatement, String>
carries either a typed program or one error, never both, and no
diagnostic list. -/
theorem createTypedAst_single_error (program : Program) (env : TypeEnvironment)
    (ds : List DiscoveredType) (e : String)
    (hd : discoverUserDefinedTypes program = .ok ds)
    (he : checkType program ds env = .error e) :
    createTypedAst program env = .error e := by
  unfold createTypedAst createTypedAstWith
  rw [hd]
  exact he

/-- Closed instance of the single-error contract, on the program whose
field annotation names the undeclared type Foo. -/
theorem createTypedAst_single_error_witness :
    createTypedAst badFieldProgram TypeEnvironment.new = Except.error "Unknown type Foo" :=
  createTypedAst_single_error badFieldProgram TypeEnvironment.new
    [.struct_ "S" [("x", .type_ "Foo")]] "Unknown type Foo" rfl rfl

/-- C10: the boolean lookup_type agrees with get_type on the value's
full name on every environment chain. -/
theorem lookupType_agrees_getType (env : TypeEnvironment) (t : Ty) :
    env.lookupType t = (env.getType t.fullName).isSome := by
  induction env with
  | root ts vs =>
    simp only [TypeEnvironment.lookupType, TypeEnvironment.getType]
  | child p ts vs ih =>
    simp only [TypeEnvironment.lookupType, TypeEnvironment.getType]
    cases h : alookup t.fullName ts with
    | none => simp [h, ih]
    | some v => simp [h]

/-! Renderer theorems. -/

theorem foldl_glyphRun (l : List Bool) (s : String) :
    l.foldl (fun acc isEnd => acc ++ (if isEnd then "  " else "┆ ")) s
      = s ++ Indent.glyphRun l := by
  induction l generalizing s with
  | nil =>
    simp only [List.foldl_nil, Indent.glyphRun]
    exact (String.append_empty s).symm
  | cons b rest ih =>
    simp only [List.foldl_cons, Indent.glyphRun]
    rw [ih, String.append_assoc]

/-- C7: rendering a typed IR node is deterministic: two runs of
indent_display on the same input with equal indent stacks produce
byte-identical output, stated for the embedded typed struct-declaration
renderer and for the typed EnumMemberFieldInitializers renderer whose
impl the claim cites. -/
theorem render_deterministic (d : TypedStructDecl) (e : EnumMemberFieldInitializers)
    (i1 i2 : List Bool) (h : i1 = i2) :
    renderTypedStructDecl d i1 = renderTypedStructDecl d i2
    ∧ renderEnumMemberFieldInits e i1 = renderEnumMemberFieldInits e i2 := by
  subst h
  exact ⟨rfl, rfl⟩

/-- Closed instance of renderer determinism on a two-field struct and a
named initializer list, both at the fresh indent stack. -/
theorem render_deterministic_witness :
    renderTypedStructDecl twoFieldStruct [] = renderTypedStructDecl twoFieldStruct []
    ∧ renderEnumMemberFieldInits (.named [("r", "1")]) []
        = renderEnumMemberFieldInits (.named [("r", "1")]) [] :=
  render_deterministic twoFieldStruct (.named [("r", "1")]) [] [] rfl

/-- C8, counterexample: the corner connector is not restricted to the
last child of a level.  A typed struct declaration with two fields
renders both field lines behind dash_end (display.rs lines 1660-1665),
and one with a where-clause constraint renders the constraint's non-last
type child behind dash_end (lines 2887-2895); on both concrete nodes the
claimed connector discipline evaluates to false. -/
theorem connectorClaim_fails :
    connectorClaim (renderTypedStructDecl twoFieldStruct []).1 = false
    ∧ connectorClaim (renderTypedStructDecl whereClauseStruct []).1 = false :=
  ⟨rfl, rfl⟩

/-- C8, amended: every line-ending connector the typed renderer draws is
the tee or the corner: dash always ends in the tee, and dash_end ends in
the corner exactly when the innermost level has been marked ended
(end_current or increase_leaf), in the tee otherwise — but the corner is
not only on the last child of a level, since some impls mark the level
ended on non-last children. -/
theorem dash_dashEnd_connectors (levels : List Bool) (h : levels ≠ []) :
    Indent.dash levels = Indent.glyphRun levels.dropLast ++ "├─"
    ∧ Indent.dashEnd levels =
        Indent.glyphRun levels.dropLast ++ (if levels.getLast h then "╰─" else "├─") := by
  constructor
  · unfold Indent.dash
    rw [foldl_glyphRun, String.empty_append]
  · unfold Indent.dashEnd
    rw [foldl_glyphRun, String.empty_append, List.getLast?_eq_getLast levels h]

/-- Closed instance of the connector characterization on the stack with
an open outer level and an ended innermost level. -/
theorem dash_dashEnd_connectors_witness :
    Indent.dash [false, true] = Indent.glyphRun [false] ++ "├─"
    ∧ Indent.dashEnd [false, true] = Indent.glyphRun [false] ++ "╰─" := by
  have h := dash_dashEnd_connectors [false, true] (by simp)
  refine ⟨h.1, ?_⟩
  rw [h.2]
  simp

/-- C9: the parser renderer is not total at indent level zero: both
FieldInitializer's and Parameter's indent_display call Indent::dash,
whose loop bound self.level - 1 underflows on usize when level is zero
(a subtract-overflow panic in debug builds), while at positive levels
the same render succeeds. -/
theorem parser_render_underflow :
    renderPFieldInitializer ⟨none, "x"⟩ 0 = none
    ∧ renderPParameter ⟨"x", "i32"⟩ 0 = none
    ∧ renderPParameter ⟨"x", "i32"⟩ 1
        = some "<parameter>\n├─parameter: x\n╰─type_name: i32" :=
  ⟨rfl, rfl, rfl⟩

end MyLang
